import Mathlib

/-!
# Verification of the SophoSet persistence layer

Shallow embedding of `src/sophoset/utils/lmdb_storage.py` (the `LMDBStorage`
object store), `src/sophoset/utils/dataset_exporter.py` (the `DatasetExporter`)
and `BaseHFDataset.get_formatted_options` from
`src/sophoset/core/base_hf_dataset.py`, together with proofs and refutations
of the specified properties.

External libraries (`pickle`, `zlib`, `json`, the filesystem and the LMDB
engine) are modelled symbolically: byte strings are an inductive type whose
constructors record which library produced them, so that each library's
decode function is a computable partial inverse exactly where the real
library succeeds, and fails (raises) everywhere the real one does on
foreign input.
-/

namespace SophoSet

/-- A structural Python value: the values representable by the structural
encoder (`pickle`) that the storage layer traffics in — `None`, booleans,
integers, strings, ordered sequences and string-keyed mappings. -/
inductive PyValue where
  | none : PyValue
  | bool (b : Bool) : PyValue
  | int (n : Int) : PyValue
  | str (s : String) : PyValue
  | list (xs : List PyValue) : PyValue
  | dict (entries : List (String × PyValue)) : PyValue

/-- Symbolic byte strings. `pickled v` is the (always non-empty) output of
`pickle.dumps(v)`; `zlibbed level b` is the (always non-empty) output of
`zlib.compress(b, level)`; `empty` is `b''`; `corrupt` stands for any byte
string produced by neither library, on which both decoders raise. -/
inductive Bytes where
  | empty : Bytes
  | pickled (v : PyValue) : Bytes
  | zlibbed (level : Int) (b : Bytes) : Bytes
  | corrupt : Bytes

/-- `pickle.dumps(v, protocol=pickle.HIGHEST_PROTOCOL)`: total on structural
values (these are all picklable, so `PicklingError` is never raised). -/
def pickleDumps (v : PyValue) : Bytes := Bytes.pickled v

/-- `pickle.loads(data)`: recovers the pickled value; raises
(`pickle.UnpicklingError`, modelled as `Option.none`) on anything that is
not pickle output. -/
def pickleLoads : Bytes → Option PyValue
  | Bytes.pickled v => some v
  | _ => Option.none

/-- `zlib.compress(data, level)`. -/
def zlibCompress (level : Int) (data : Bytes) : Bytes := Bytes.zlibbed level data

/-- `zlib.decompress(data)`: inverse of `zlibCompress`; raises `zlib.error`
(modelled as `Option.none`) on anything that is not zlib output. -/
def zlibDecompress : Bytes → Option Bytes
  | Bytes.zlibbed _ b => some b
  | _ => Option.none

/-- Python truthiness of a byte string: `not data` is true exactly for `b''`. -/
def Bytes.isEmpty : Bytes → Bool
  | Bytes.empty => true
  | _ => false

/-- `Config.__init__` clamp performed in `LMDBStorage.__init__`:
`min(9, max(0, config.compression_level))`. -/
def clampLevel (level : Int) : Int := min 9 (max 0 level)

/-- `LMDBStorage._serialize`: pickle the value, then compress it when the
store's compression flag is on (`zlib.compress(data, level=self.compression_level)`). -/
def serialize (compress : Bool) (compressionLevel : Int) (value : PyValue) : Bytes :=
  let data := pickleDumps value
  if compress then zlibCompress compressionLevel data else data

/-- `LMDBStorage._deserialize`: returns `None` for empty input; decompresses
when the compression flag is on, then unpickles; any `zlib.error`,
`pickle.UnpicklingError` or `TypeError` is caught, logged, and `None` is
returned. -/
def deserialize (compress : Bool) (data : Bytes) : PyValue :=
  if data.isEmpty then PyValue.none
  else if compress then
    match zlibDecompress data with
    | Option.none => PyValue.none
    | some decompressed =>
      match pickleLoads decompressed with
      | Option.none => PyValue.none
      | some v => v
  else
    match pickleLoads data with
    | Option.none => PyValue.none
    | some v => v

/-- The serializer round-trips: shared workhorse for the round-trip and
overwrite properties. -/
theorem deserialize_serialize (compress : Bool) (level : Int) (v : PyValue) :
    deserialize compress (serialize compress level v) = v := by
  cases compress <;> simp [serialize, deserialize, pickleDumps, pickleLoads,
    zlibCompress, zlibDecompress, Bytes.isEmpty]

/-- `Config` dataclass of `lmdb_storage.py` (the `db_path` names the backing
directory and plays no further role in the semantics modelled here). -/
structure Config where
  db_path : String := "lmdb_data"
  compress : Bool := true
  compression_level : Int := 6

/-- State of an `LMDBStorage` instance. `isOpen` models whether `self.env`
still holds the environment handle (`close()` sets it to `None`); `data` is
the single flat table of the environment, a key-ordered map modelled as an
association list from (UTF-8 decoded) keys to stored byte strings. -/
structure LMDBState where
  compress : Bool
  compression_level : Int
  isOpen : Bool
  data : List (String × Bytes)

/-- `LMDBStorage.__init__` + `_setup_db`: record the config (with the
compression level clamped to `[0, 9]`) and open the environment over
whatever entries the directory already holds. -/
def openStorage (config : Config) (existing : List (String × Bytes)) : LMDBState :=
  { compress := config.compress
    compression_level := clampLevel config.compression_level
    isOpen := true
    data := existing }

/-- `txn.put` inside the single flat table: overwrite the entry if the key
is present, append it otherwise (LMDB keeps keys sorted; for the properties
proved here only the mapping matters, so insertion position is immaterial). -/
def tablePut : List (String × Bytes) → String → Bytes → List (String × Bytes)
  | [], key, value => [(key, value)]
  | (k, v) :: rest, key, value =>
    if k = key then (key, value) :: rest
    else (k, v) :: tablePut rest key value

/-- `txn.get`: the bytes stored under a key, if any. -/
def tableGet : List (String × Bytes) → String → Option Bytes
  | [], _ => Option.none
  | (k, v) :: rest, key => if k = key then some v else tableGet rest key

/-- `LMDBStorage.put`: serialize the value and write it in a write
transaction, returning `True`; any exception inside the transaction — in
particular the `AttributeError` from `self.env.begin` once `close()` has set
`self.env = None` — is caught, logged and turned into `False`. -/
def put (st : LMDBState) (key : String) (value : PyValue) : Bool × LMDBState :=
  if st.isOpen then
    (true, { st with data := tablePut st.data key (serialize st.compress st.compression_level value) })
  else
    (false, st)

/-- `LMDBStorage.get`: read the key in a read transaction and deserialize;
returns `default` when the key is absent; any exception — in particular the
`AttributeError` on a closed environment — is caught, logged and turned into
`default`. -/
def get (st : LMDBState) (key : String) (default : PyValue) : PyValue :=
  if st.isOpen then
    match tableGet st.data key with
    | Option.none => default
    | some valueBytes => deserialize st.compress valueBytes
  else default

/-- `LMDBStorage.close`: release the environment handle (`self.env = None`). -/
def close (st : LMDBState) : LMDBState := { st with isOpen := false }

/-- `LMDBStorage.clear`: drop all entries in a write transaction; `False` on
a closed environment. -/
def clear (st : LMDBState) : Bool × LMDBState :=
  if st.isOpen then (true, { st with data := [] }) else (false, st)

/-- `LMDBStorage.all_items`: cursor over every `(key_bytes, value_bytes)`
pair, storing `result[key] = self._deserialize(value_bytes)`. Keys written
through this API are UTF-8 encodings of strings, so the per-item
`except` branch (key decode failure or an exception escaping
`_deserialize`) is never taken; the whole-scan `except` yields the empty
mapping on a closed environment. -/
def all_items (st : LMDBState) : List (String × PyValue) :=
  if st.isOpen then
    st.data.map (fun kv => (kv.1, deserialize st.compress kv.2))
  else []

/-- Result of a JSON parse of a file's text, as `json.load` sees it:
modelled from the external `json` library. A well-formed top-level object
becomes its key-value entries; a well-formed non-object document (array,
string, number, ...) is `jsonNonObject`; text that is not JSON raises
`json.JSONDecodeError` (`invalidJson`). -/
inductive FileContent where
  | invalidJson : FileContent
  | jsonObject (entries : List (String × PyValue)) : FileContent
  | jsonNonObject (v : PyValue) : FileContent

/-- Outcome of `LMDBStorage.from_json` as the caller sees it: a returned
boolean, or a propagated exception. -/
inductive FromJsonOutcome where
  | ret (b : Bool) : FromJsonOutcome
  | raiseFileNotFound : FromJsonOutcome
  | raiseJsonDecode : FromJsonOutcome

/-- `LMDBStorage.from_json`: given a filesystem (`fs path` = the parsed
content of the file at `path`, `Option.none` when no file exists there):
raises `FileNotFoundError` when `Path(file_path).is_file()` is false; parses
the file, re-raising `json.JSONDecodeError`; optionally `clear()`s; then
`put`s every entry of the top-level object (the boolean each `put` returns
is not inspected) and returns `True`. A non-object document makes
`data.items()` raise `AttributeError`, which the final `except Exception`
converts to `False`. -/
def from_json (st : LMDBState) (fs : String → Option FileContent)
    (file_path : String) (clear_existing : Bool) : FromJsonOutcome × LMDBState :=
  match fs file_path with
  | Option.none => (FromJsonOutcome.raiseFileNotFound, st)
  | some FileContent.invalidJson => (FromJsonOutcome.raiseJsonDecode, st)
  | some (FileContent.jsonNonObject _) =>
    (FromJsonOutcome.ret false, if clear_existing then (clear st).2 else st)
  | some (FileContent.jsonObject entries) =>
    let st1 := if clear_existing then (clear st).2 else st
    (FromJsonOutcome.ret true,
     entries.foldl (fun acc kv => (put acc kv.1 kv.2).2) st1)

theorem tableGet_tablePut (data : List (String × Bytes)) (key : String) (value : Bytes) :
    tableGet (tablePut data key value) key = some value := by
  induction data with
  | nil => simp [tablePut, tableGet]
  | cons kv rest ih =>
    obtain ⟨k, v⟩ := kv
    by_cases h : k = key <;> simp [tablePut, tableGet, h, ih]

/-- Claim C1: for every value representable by the structural encoder,
deserializing the result of serializing it yields a structurally equal
value, both with the compression flag on and off, at any compression level
in 0..9. -/
theorem serialize_roundtrip (compress : Bool) (level : Int) (v : PyValue)
    (_h0 : 0 ≤ level) (_h9 : level ≤ 9) :
    deserialize compress (serialize compress level v) = v :=
  deserialize_serialize compress level v

/-- Witness for `serialize_roundtrip` at level 6, with compression on and
off, on a nested dict value. -/
theorem serialize_roundtrip_witness :
    (0 : Int) ≤ 6 ∧ (6 : Int) ≤ 9 ∧
    deserialize true (serialize true 6
      (PyValue.dict [("q", PyValue.str "x"), ("n", PyValue.int 3)])) =
      PyValue.dict [("q", PyValue.str "x"), ("n", PyValue.int 3)] ∧
    deserialize false (serialize false 6 (PyValue.list [PyValue.bool true])) =
      PyValue.list [PyValue.bool true] :=
  ⟨by norm_num, by norm_num,
   serialize_roundtrip true 6 _ (by norm_num) (by norm_num),
   serialize_roundtrip false 6 _ (by norm_num) (by norm_num)⟩

/-- An open compressing store holding one key whose stored bytes were
produced by neither zlib nor pickle, so that deserialization fails. -/
def corruptStore : LMDBState :=
  { compress := true, compression_level := 6, isOpen := true,
    data := [("k", Bytes.corrupt)] }

/-- Claim C2, counterexample: when the bytes stored under `"k"` fail to
decompress, `get("k", default=42)` does not return the default `42`
(`_deserialize` catches the `zlib.error` and returns `None`, and `get`
passes that `None` through). -/
theorem get_corrupt_not_default_cex :
    get corruptStore "k" (PyValue.int 42) ≠ PyValue.int 42 := by
  simp [get, corruptStore, tableGet, deserialize, Bytes.isEmpty, zlibDecompress]

/-- Claim C2, amended: on an open store, `get(k, default=d)` returns `d`
when `k` is absent (and never raises), but when the stored bytes fail to
deserialize it returns the deserializer's failure sentinel `None`, not `d`. -/
theorem get_absent_default_corrupt_none (st : LMDBState) (k : String) (d : PyValue)
    (hopen : st.isOpen = true) :
    (tableGet st.data k = Option.none → get st k d = d) ∧
    (tableGet st.data k = some Bytes.corrupt → get st k d = PyValue.none) := by
  constructor
  · intro habsent
    simp [get, hopen, habsent]
  · intro hcorrupt
    cases hc : st.compress <;>
      simp [get, hopen, hcorrupt, deserialize, Bytes.isEmpty, zlibDecompress,
        pickleLoads, hc]

/-- Witness for `get_absent_default_corrupt_none` on `corruptStore`. -/
theorem get_absent_default_corrupt_none_witness :
    corruptStore.isOpen = true ∧
    ((tableGet corruptStore.data "k" = Option.none →
        get corruptStore "k" (PyValue.int 42) = PyValue.int 42) ∧
     (tableGet corruptStore.data "k" = some Bytes.corrupt →
        get corruptStore "k" (PyValue.int 42) = PyValue.none)) :=
  ⟨rfl, get_absent_default_corrupt_none corruptStore "k" (PyValue.int 42) rfl⟩

/-- Claim C3: on an open store, `put(k, v1)` then `put(k, v2)` then
`get(k)` returns `v2` — the second put overwrites the first. -/
theorem put_put_get_overwrites (compress : Bool) (level : Int)
    (data : List (String × Bytes)) (k : String) (v1 v2 d : PyValue) :
    get (put (put ⟨compress, level, true, data⟩ k v1).2 k v2).2 k d = v2 := by
  simp [put, get, tableGet_tablePut, deserialize_serialize]

/-- Claim C7: `from_json` raises `FileNotFoundError` when the path names no
existing file, and re-raises the `json.JSONDecodeError` when the file exists
but is not valid JSON; neither case degrades to a boolean return. -/
theorem from_json_missing_raises_invalid_raises
    (st st' : LMDBState) (fs fs' : String → Option FileContent)
    (p p' : String) (ce ce' : Bool)
    (hmiss : fs p = Option.none)
    (hbad : fs' p' = some FileContent.invalidJson) :
    (from_json st fs p ce).1 = FromJsonOutcome.raiseFileNotFound ∧
    (from_json st' fs' p' ce').1 = FromJsonOutcome.raiseJsonDecode := by
  constructor <;> simp [from_json, hmiss, hbad]

/-- Witness for `from_json_missing_raises_invalid_raises` on a fresh store,
an empty filesystem and a filesystem holding one malformed file. -/
theorem from_json_missing_raises_invalid_raises_witness :
    ((fun _ : String => (Option.none : Option FileContent)) "a.json" = Option.none) ∧
    ((fun _ : String => some FileContent.invalidJson) "b.json" =
      some FileContent.invalidJson) ∧
    ((from_json (openStorage {} []) (fun _ => Option.none) "a.json" false).1 =
      FromJsonOutcome.raiseFileNotFound ∧
     (from_json (openStorage {} []) (fun _ => some FileContent.invalidJson) "b.json" false).1 =
      FromJsonOutcome.raiseJsonDecode) :=
  ⟨rfl, rfl,
   from_json_missing_raises_invalid_raises (openStorage {} []) (openStorage {} [])
     (fun _ => Option.none) (fun _ => some FileContent.invalidJson)
     "a.json" "b.json" false false rfl rfl⟩

/-- A store on which every `put` fails: `close()` has released the
environment handle, so `put` hits the caught `AttributeError` branch and
returns `False`. -/
def closedImportStore : LMDBState := close (openStorage {} [])

/-- A filesystem with one well-formed JSON-object file of one entry. -/
def importedObjectFs : String → Option FileContent :=
  fun _ => some (FileContent.jsonObject [("k", PyValue.str "v")])

/-- Claim C8, counterexample: on `closedImportStore` the single entry's
`put` returns `False`, yet `from_json` still reports overall success
(`True`) to the caller — partial (here: total) storage failure is not a
caller-visible failure of the bulk import. -/
theorem from_json_reports_success_despite_put_failure_cex :
    (put closedImportStore "k" (PyValue.str "v")).1 = false ∧
    (from_json closedImportStore importedObjectFs "data.json" false).1 =
      FromJsonOutcome.ret true := by
  constructor <;> rfl

/-- Claim C8, amended: for every well-formed JSON-object input,
`from_json` returns `True` regardless of whether the individual entry
`put`s succeed — the per-entry booleans are never inspected, so only
file-level and JSON-level errors are caller-visible. -/
theorem from_json_true_ignoring_put_results (st : LMDBState)
    (fs : String → Option FileContent) (p : String)
    (entries : List (String × PyValue))
    (h : fs p = some (FileContent.jsonObject entries)) :
    (from_json st fs p false).1 = FromJsonOutcome.ret true := by
  simp [from_json, h]

/-- Witness for `from_json_true_ignoring_put_results` on the closed store
where every `put` fails. -/
theorem from_json_true_ignoring_put_results_witness :
    importedObjectFs "data.json" =
      some (FileContent.jsonObject [("k", PyValue.str "v")]) ∧
    (from_json closedImportStore importedObjectFs "data.json" false).1 =
      FromJsonOutcome.ret true :=
  ⟨rfl, from_json_true_ignoring_put_results closedImportStore importedObjectFs
    "data.json" [("k", PyValue.str "v")] rfl⟩

/-- An open compressing store with one well-formed entry and one entry whose
bytes fail to deserialize. -/
def corruptScanStore : LMDBState :=
  { compress := true, compression_level := 6, isOpen := true,
    data := [("good", serialize true 6 (PyValue.int 1)), ("bad", Bytes.corrupt)] }

/-- Claim C9, counterexample: the key `"bad"` holds bytes that fail to
deserialize (both decoders raise on them), yet `all_items` does not omit
it — the key appears in the returned mapping, bound to the sentinel `None`. -/
theorem all_items_keeps_failing_key_cex :
    tableGet corruptScanStore.data "bad" = some Bytes.corrupt ∧
    zlibDecompress Bytes.corrupt = Option.none ∧
    pickleLoads Bytes.corrupt = Option.none ∧
    "bad" ∈ (all_items corruptScanStore).map Prod.fst := by
  refine ⟨rfl, rfl, rfl, ?_⟩
  simp [all_items, corruptScanStore]

/-- Claim C9, amended: on an open store, `all_items` returns one entry per
stored key — the key set of the result is exactly the stored key set, and
every stored pair appears mapped through `_deserialize`, so entries whose
bytes fail to deserialize are not skipped but appear with the sentinel
`None` value. -/
theorem all_items_maps_every_key (st : LMDBState) (hopen : st.isOpen = true) :
    (all_items st).map Prod.fst = st.data.map Prod.fst ∧
    ∀ k b, (k, b) ∈ st.data → (k, deserialize st.compress b) ∈ all_items st := by
  constructor
  · simp [all_items, hopen]
  · intro k b hmem
    simpa [all_items, hopen] using
      List.mem_map_of_mem (fun kv => (kv.1, deserialize st.compress kv.2)) hmem

/-- Witness for `all_items_maps_every_key` on `corruptScanStore`. -/
theorem all_items_maps_every_key_witness :
    corruptScanStore.isOpen = true ∧
    ((all_items corruptScanStore).map Prod.fst =
      corruptScanStore.data.map Prod.fst ∧
     ∀ k b, (k, b) ∈ corruptScanStore.data →
       (k, deserialize corruptScanStore.compress b) ∈ all_items corruptScanStore) :=
  ⟨rfl, all_items_maps_every_key corruptScanStore rfl⟩

/-- Claim C10: after `close()`, the public operations do not raise at the
interface: `put` returns `False` (the transaction attempt on the released
handle fails inside the caught-exception branch) and `get` returns the
caller's default. -/
theorem closed_store_put_false_get_default (st : LMDBState) (k : String)
    (v d : PyValue) :
    (put (close st) k v).1 = false ∧ get (close st) k d = d := by
  constructor <;> simp [put, get, close]

/-! ## Option formatting (`BaseHFDataset.get_formatted_options`) -/

/-- `letters = [chr(65 + i) for i in range(26)]`: the labels `'A'..'Z'`. -/
def optionLetters : List String :=
  (List.range 26).map (fun i => String.mk [Char.ofNat (65 + i)])

/-- The `for i, opt in enumerate(options)` loop body of
`get_formatted_options`: assign `formatted[letters[i]] = opt` while
`i < len(letters)`; options past that point are dropped with a logged
warning. Python dicts preserve insertion order and the letters are
distinct, so the dict is modelled as the association list built in loop
order. -/
def formatOptionsAux (letters : List String) : List String → Nat → List (String × String)
  | [], _ => []
  | opt :: rest, i =>
    if h : i < letters.length then
      (letters[i], opt) :: formatOptionsAux letters rest (i + 1)
    else
      formatOptionsAux letters rest (i + 1)

/-- `BaseHFDataset.get_formatted_options` on a raw option sequence: empty
input yields the empty mapping, otherwise the enumerate loop over the
letters `'A'..'Z'`. (The branch for input that is already a mapping returns
it unchanged and is not involved here.) -/
def get_formatted_options (options : List String) : List (String × String) :=
  if options.isEmpty then [] else formatOptionsAux optionLetters options 0

theorem formatOptionsAux_eq_zip (letters : List String) (options : List String) :
    ∀ i : Nat, formatOptionsAux letters options i = (letters.drop i).zip options := by
  induction options with
  | nil => intro i; simp [formatOptionsAux]
  | cons opt rest ih =>
    intro i
    by_cases h : i < letters.length
    · rw [formatOptionsAux, dif_pos h, ih (i + 1),
        List.drop_eq_getElem_cons h, List.zip_cons_cons]
    · have hlen : letters.length ≤ i := Nat.le_of_not_lt h
      rw [formatOptionsAux, dif_neg h, ih (i + 1),
        List.drop_eq_nil_of_le hlen, List.drop_eq_nil_of_le (Nat.le_succ_of_le hlen)]
      simp

theorem map_snd_zip_eq_take {α β : Type} (l₁ : List α) (l₂ : List β) :
    (l₁.zip l₂).map Prod.snd = l₂.take l₁.length := by
  induction l₁ generalizing l₂ with
  | nil => simp
  | cons a as ih =>
    cases l₂ with
    | nil => simp
    | cons b bs => simp [ih]

/-- Claim C6: for every record whose raw options are a sequence of 30
entries, the formatted options mapping has exactly 26 entries, keyed
`'A'..'Z'` in presentation order with the i-th option under the i-th
letter, and the remaining 4 options are dropped. -/
theorem option_label_cap (options : List String) (h : options.length = 30) :
    (get_formatted_options options).length = 26 ∧
    (get_formatted_options options).map Prod.fst = optionLetters ∧
    (get_formatted_options options).map Prod.snd = options.take 26 := by
  have hne : options.isEmpty = false := by
    cases options with
    | nil => simp at h
    | cons o rest => rfl
  have hletters : optionLetters.length = 26 := rfl
  have heq : get_formatted_options options = optionLetters.zip options := by
    rw [get_formatted_options, hne]
    simpa using formatOptionsAux_eq_zip optionLetters options 0
  refine ⟨?_, ?_, ?_⟩
  · rw [heq, List.length_zip, hletters, h]
    norm_num
  · rw [heq]
    exact List.map_fst_zip _ _ (by rw [hletters, h]; norm_num)
  · rw [heq, map_snd_zip_eq_take, hletters]

/-- Witness for `option_label_cap` on a concrete 30-option list. -/
theorem option_label_cap_witness :
    (List.replicate 30 "opt").length = 30 ∧
    ((get_formatted_options (List.replicate 30 "opt")).length = 26 ∧
     (get_formatted_options (List.replicate 30 "opt")).map Prod.fst = optionLetters ∧
     (get_formatted_options (List.replicate 30 "opt")).map Prod.snd =
       (List.replicate 30 "opt").take 26) :=
  ⟨rfl, option_label_cap (List.replicate 30 "opt") rfl⟩

/-! ## Dataset export (`DatasetExporter.save_to_json` / `save_to_lmdb`)

The exporter walks the adapter's (subset × split) matrix. A partition load
(`dataset.load_dataset(split, subset)`) either succeeds, yielding the
partition's rows (each row itself either a `QAData` or a raised exception
from `get_row_data`), or raises. `save_to_json` guards the load with
`except RuntimeError` only; `save_to_lmdb` wraps the whole partition in
`except Exception`. Exception classes are tracked because the two differ. -/

/-- The exception classes relevant to the exporter's `except` clauses.
`BaseHFDataset.load_dataset` raises `ValueError` when the split is not
found and wraps every other load failure in `RuntimeError`. -/
inductive PyErr where
  | runtimeError : PyErr
  | valueError : PyErr
  | typeError : PyErr
  | otherError : PyErr
  deriving DecidableEq, Repr

/-- The `QAData` dataclass of `base_hf_dataset.py`. -/
structure QAData where
  key : String
  context : String := ""
  question : String := ""
  images : List PyValue := []
  options : List (String × String) := []
  answer : String := ""
  explanation : String := ""
  metadata : List (String × PyValue) := []

/-- The Dataset Adapter interface as the exporter consumes it.
`partitions s sp` models `load_dataset(sp, s)` followed by
`get_row_count()` / `get_row_data(i)`: `Except.error e` is a load that
raises `e`; a successful load yields the list of per-row outcomes
(`Except.error` where `get_row_data` raises). -/
structure Adapter where
  dataset_name : String
  subsets : List String
  splits : String → List String
  partitions : String → String → Except PyErr (List (Except PyErr QAData))

/-- Rows of one loaded partition that reach `json.dump`: the per-row
`try`/`except Exception` skips rows whose extraction raises. -/
def jsonPartitionRows (rows : List (Except PyErr QAData)) : List QAData :=
  rows.filterMap (fun r => match r with
    | Except.ok q => some q
    | Except.error _ => Option.none)

/-- The split loop of `save_to_json` for one subset: a load failure is
skipped (`logger.warning`) only when it is a `RuntimeError` — the
`except RuntimeError` clause — and any other exception class propagates,
aborting the export. The result is the row dicts appended to the JSON
array, or the propagated exception. -/
def saveToJsonSplits (a : Adapter) (subset : String) :
    List String → Except PyErr (List QAData)
  | [] => Except.ok []
  | split :: rest =>
    match a.partitions subset split with
    | Except.error e =>
      if e = PyErr.runtimeError then saveToJsonSplits a subset rest
      else Except.error e
    | Except.ok rows =>
      match saveToJsonSplits a subset rest with
      | Except.error e => Except.error e
      | Except.ok tail => Except.ok (jsonPartitionRows rows ++ tail)

/-- The subset loop of `save_to_json`. -/
def saveToJsonSubsets (a : Adapter) : List String → Except PyErr (List QAData)
  | [] => Except.ok []
  | s :: rest =>
    match saveToJsonSplits a s (a.splits s) with
    | Except.error e => Except.error e
    | Except.ok rows =>
      match saveToJsonSubsets a rest with
      | Except.error e => Except.error e
      | Except.ok tail => Except.ok (rows ++ tail)

/-- `DatasetExporter.save_to_json`: substitutes the `['default']`
placeholder when the adapter reports no subsets, then walks the matrix.
The value is the ordered list of records written to the JSON array file,
or the exception the call raises. -/
def save_to_json (a : Adapter) : Except PyErr (List QAData) :=
  saveToJsonSubsets a (if a.subsets.isEmpty then ["default"] else a.subsets)

/-- The row loop of `save_to_lmdb` for one loaded partition: each
successful row is deep-copied, has its images normalized (`processRow`
models that always-total block), and is `put` under
`get_key(irow) = f"{subset}/{split}/{irow}"`; a row whose extraction
raises is logged and skipped, its index still consumed. -/
def lmdbRowsAux (processRow : QAData → QAData) (subset split : String) :
    List (Except PyErr QAData) → Nat → List (String × QAData)
  | [], _ => []
  | Except.error _ :: rest, i => lmdbRowsAux processRow subset split rest (i + 1)
  | Except.ok q :: rest, i =>
    (subset ++ "/" ++ split ++ "/" ++ toString i, processRow q) ::
      lmdbRowsAux processRow subset split rest (i + 1)

/-- The split loop of `save_to_lmdb` for one subset: the whole partition
body sits in `except Exception`, so a load failure of any class is logged
and skipped. -/
def saveToLmdbSplits (a : Adapter) (processRow : QAData → QAData) (subset : String) :
    List String → List (String × QAData)
  | [] => []
  | split :: rest =>
    match a.partitions subset split with
    | Except.error _ => saveToLmdbSplits a processRow subset rest
    | Except.ok rows =>
      lmdbRowsAux processRow subset split rows 0 ++
        saveToLmdbSplits a processRow subset rest

/-- The subset loop of `save_to_lmdb`. -/
def saveToLmdbSubsets (a : Adapter) (processRow : QAData → QAData) :
    List String → List (String × QAData)
  | [] => []
  | s :: rest =>
    saveToLmdbSplits a processRow s (a.splits s) ++
      saveToLmdbSubsets a processRow rest

/-- `DatasetExporter.save_to_lmdb`: walks `dataset.get_subsets()` directly
— unlike `save_to_json` it has no `['default']` placeholder fallback. The
value is the ordered list of `(key, record)` pairs `put` into the store. -/
def save_to_lmdb (a : Adapter) (processRow : QAData → QAData) :
    List (String × QAData) :=
  saveToLmdbSubsets a processRow a.subsets

/-- The records a fully resilient traversal of `subsets` would write to the
JSON file: every loadable partition contributes its extractable rows, every
failing partition contributes nothing. -/
def exportedJsonRows (a : Adapter) (subsets : List String) : List QAData :=
  subsets.flatMap (fun s => (a.splits s).flatMap (fun sp =>
    match a.partitions s sp with
    | Except.error _ => []
    | Except.ok rows => jsonPartitionRows rows))

/-- The `(key, record)` pairs a fully resilient traversal of `subsets`
would put into the store. -/
def exportedLmdbPairs (a : Adapter) (processRow : QAData → QAData)
    (subsets : List String) : List (String × QAData) :=
  subsets.flatMap (fun s => (a.splits s).flatMap (fun sp =>
    match a.partitions s sp with
    | Except.error _ => []
    | Except.ok rows => lmdbRowsAux processRow s sp rows 0))

theorem saveToJsonSplits_ok (a : Adapter) (s : String) (sps : List String)
    (h : ∀ sp ∈ sps, ∀ e, a.partitions s sp = Except.error e → e = PyErr.runtimeError) :
    saveToJsonSplits a s sps =
      Except.ok (sps.flatMap (fun sp =>
        match a.partitions s sp with
        | Except.error _ => []
        | Except.ok rows => jsonPartitionRows rows)) := by
  induction sps with
  | nil => rfl
  | cons sp rest ih =>
    have hrest := ih (fun sp' hm => h sp' (List.mem_cons_of_mem sp hm))
    cases hpart : a.partitions s sp with
    | error e =>
      have he : e = PyErr.runtimeError := h sp (List.mem_cons_self sp rest) e hpart
      subst he
      simp [saveToJsonSplits, hpart, hrest]
    | ok rows =>
      simp [saveToJsonSplits, hpart, hrest]

theorem saveToJsonSubsets_ok (a : Adapter) (subsets : List String)
    (h : ∀ s ∈ subsets, ∀ sp ∈ a.splits s, ∀ e,
      a.partitions s sp = Except.error e → e = PyErr.runtimeError) :
    saveToJsonSubsets a subsets = Except.ok (exportedJsonRows a subsets) := by
  induction subsets with
  | nil => rfl
  | cons s rest ih =>
    have hs := saveToJsonSplits_ok a s (a.splits s) (h s (List.mem_cons_self s rest))
    have hrest := ih (fun s' hm => h s' (List.mem_cons_of_mem s hm))
    simp [saveToJsonSubsets, hs, hrest, exportedJsonRows]

theorem saveToLmdbSplits_eq (a : Adapter) (processRow : QAData → QAData)
    (s : String) (sps : List String) :
    saveToLmdbSplits a processRow s sps =
      sps.flatMap (fun sp =>
        match a.partitions s sp with
        | Except.error _ => []
        | Except.ok rows => lmdbRowsAux processRow s sp rows 0) := by
  induction sps with
  | nil => rfl
  | cons sp rest ih =>
    cases hpart : a.partitions s sp <;> simp [saveToLmdbSplits, hpart, ih]

theorem saveToLmdbSubsets_eq (a : Adapter) (processRow : QAData → QAData)
    (subsets : List String) :
    saveToLmdbSubsets a processRow subsets =
      exportedLmdbPairs a processRow subsets := by
  induction subsets with
  | nil => rfl
  | cons s rest ih =>
    simp [saveToLmdbSubsets, ih, exportedLmdbPairs, saveToLmdbSplits_eq]

/-- A record produced by the counterexample adapter for the partition-skip
claim. -/
def c4Row : QAData := { key := "s2/train/0", question := "q" }

/-- An adapter with two (subset, split) pairs of which exactly one fails to
load — with `ValueError`, the class `BaseHFDataset.load_dataset` raises
when the requested split is not available. -/
def c4Adapter : Adapter :=
  { dataset_name := "d"
    subsets := ["s1", "s2"]
    splits := fun _ => ["train"]
    partitions := fun s _ =>
      if s = "s1" then Except.error PyErr.valueError
      else Except.ok [Except.ok c4Row] }

/-- Claim C4, counterexample: `c4Adapter` has two partitions and its load
raises for exactly one of them, with `ValueError`. The key-value exporter
skips the failing partition and still writes the healthy partition's
record, but `save_to_json` does not skip it — the `ValueError` passes the
`except RuntimeError` clause and the flat-file export itself raises,
writing nothing for the healthy partition either. -/
theorem exporter_valueError_partition_cex :
    c4Adapter.partitions "s1" "train" = Except.error PyErr.valueError ∧
    c4Adapter.partitions "s2" "train" = Except.ok [Except.ok c4Row] ∧
    save_to_lmdb c4Adapter (fun q => q) = [("s2/train/0", c4Row)] ∧
    save_to_json c4Adapter = Except.error PyErr.valueError := by
  refine ⟨?_, ?_, ?_, ?_⟩ <;> rfl

/-- Claim C4, amended: for every adapter, the key-value exporter logs and
skips every partition whose load raises — whatever the exception class —
and writes exactly the loadable partitions' records, without raising; the
flat-file exporter does the same only when every failing load raises
`RuntimeError` (the class its `except` clause matches), and propagates any
other class. -/
theorem exporter_partition_skip (a : Adapter) (processRow : QAData → QAData) :
    save_to_lmdb a processRow = exportedLmdbPairs a processRow a.subsets ∧
    ((∀ s sp e, a.partitions s sp = Except.error e → e = PyErr.runtimeError) →
      save_to_json a = Except.ok (exportedJsonRows a
        (if a.subsets.isEmpty then ["default"] else a.subsets))) := by
  constructor
  · exact saveToLmdbSubsets_eq a processRow a.subsets
  · intro herr
    exact saveToJsonSubsets_ok a _ (fun s _ sp _ e h => herr s sp e h)

/-- The `c4Adapter` variant whose single failing partition raises
`RuntimeError` instead. -/
def c4OkAdapter : Adapter :=
  { dataset_name := "d"
    subsets := ["s1", "s2"]
    splits := fun _ => ["train"]
    partitions := fun s _ =>
      if s = "s1" then Except.error PyErr.runtimeError
      else Except.ok [Except.ok c4Row] }

/-- Witness for `exporter_partition_skip`: the key-value conjunct is
instantiated on `c4Adapter`, whose failing partition raises `ValueError`
(an exception class the flat-file clause would not skip), and the
flat-file conjunct on `c4OkAdapter`, whose failing partition raises
`RuntimeError`, discharging the conjunct's hypothesis there. -/
theorem exporter_partition_skip_witness :
    save_to_lmdb c4Adapter (fun q => q) =
      exportedLmdbPairs c4Adapter (fun q => q) c4Adapter.subsets ∧
    (∀ s sp e, c4OkAdapter.partitions s sp = Except.error e → e = PyErr.runtimeError) ∧
    save_to_lmdb c4OkAdapter (fun q => q) =
      exportedLmdbPairs c4OkAdapter (fun q => q) c4OkAdapter.subsets ∧
    save_to_json c4OkAdapter = Except.ok (exportedJsonRows c4OkAdapter
      (if c4OkAdapter.subsets.isEmpty then ["default"] else c4OkAdapter.subsets)) := by
  have herr : ∀ s sp e,
      c4OkAdapter.partitions s sp = Except.error e → e = PyErr.runtimeError := by
    intro s sp e h
    by_cases hs : s = "s1" <;> simp [c4OkAdapter, hs] at h
    exact h.symm
  exact ⟨(exporter_partition_skip c4Adapter (fun q => q)).1, herr,
    (exporter_partition_skip c4OkAdapter (fun q => q)).1,
    (exporter_partition_skip c4OkAdapter (fun q => q)).2 herr⟩

/-- A record produced by the empty-subsets counterexample adapter. -/
def c5Row : QAData := { key := "default/train/0" }

/-- An adapter reporting no subsets, whose `'default'` placeholder subset
has one loadable split of one row. -/
def c5Adapter : Adapter :=
  { dataset_name := "d"
    subsets := []
    splits := fun _ => ["train"]
    partitions := fun s sp =>
      if s = "default" ∧ sp = "train" then Except.ok [Except.ok c5Row]
      else Except.ok [] }

/-- Claim C5, counterexample: with `get_subsets()` empty, the flat-file
exporter substitutes the `'default'` placeholder and writes the row, but
`save_to_lmdb` iterates the empty subset list directly and writes nothing
— the key-value target has no placeholder fallback. -/
theorem save_to_lmdb_no_placeholder_cex :
    c5Adapter.subsets = [] ∧
    save_to_json c5Adapter = Except.ok [c5Row] ∧
    save_to_lmdb c5Adapter (fun q => q) = [] := by
  refine ⟨rfl, ?_, rfl⟩
  rfl

/-- Claim C5, amended: when the adapter reports no subsets, only the
flat-file JSON exporter uses the single `'default'` placeholder subset and
still traverses its splits and writes its records; the key-value exporter
iterates the reported (empty) subset list and writes nothing. -/
theorem empty_subsets_placeholder_json_only (a : Adapter)
    (processRow : QAData → QAData) (hempty : a.subsets = [])
    (herr : ∀ sp e, a.partitions "default" sp = Except.error e →
      e = PyErr.runtimeError) :
    save_to_json a = Except.ok (exportedJsonRows a ["default"]) ∧
    save_to_lmdb a processRow = [] := by
  constructor
  · rw [save_to_json, hempty]
    exact saveToJsonSubsets_ok a ["default"] (by
      intro s hs sp _ e h
      rw [List.mem_singleton] at hs
      subst hs
      exact herr sp e h)
  · rw [save_to_lmdb, hempty]
    rfl

/-- Witness for `empty_subsets_placeholder_json_only` on `c5Adapter`. -/
theorem empty_subsets_placeholder_json_only_witness :
    c5Adapter.subsets = [] ∧
    (∀ sp e, c5Adapter.partitions "default" sp = Except.error e →
      e = PyErr.runtimeError) ∧
    (save_to_json c5Adapter = Except.ok (exportedJsonRows c5Adapter ["default"]) ∧
     save_to_lmdb c5Adapter (fun q => q) = []) := by
  have herr : ∀ sp e, c5Adapter.partitions "default" sp = Except.error e →
      e = PyErr.runtimeError := by
    intro sp e h
    by_cases hsp : sp = "train" <;> simp [c5Adapter, hsp] at h
  exact ⟨rfl, herr, empty_subsets_placeholder_json_only c5Adapter (fun q => q) rfl herr⟩

end SophoSet
